import Mathlib

/-!
Verification development for `happy_hare_motorized_rewinder`.

The repository has two Python source files:

* `drv8833_motor.py` — a DC motor driven through a DRV8833 H-bridge:
  `Drv8833Motor.set_speed` turns a signed velocity plus decay mode into two
  per-leg duty values (with an optional kick-start pulse) and schedules them,
  `ab_to_velocity` decodes a duty pair back into a signed velocity, and
  `get_status` reports the last commanded velocity and decay mode.
* `mmu_rewinder_patch.py` — a dispatcher that wraps the MMU's
  `_trace_filament_move` to bracket named filament-move stages with rewinder
  mode commands, and `send_command`, which serializes one motor command into
  an 18-byte little-endian BLE frame.

The embedding below is shallow: Python floats are modelled as exact rationals
(`ℚ`), Python exceptions as `Option`/`Except`, and the two scheduled PWM
updates of a `set_speed` call as an explicit emission list
`(time, duty_a, duty_b)`.  The IEEE-754 binary32 payload of the two float
frame fields is modelled by its 4-byte bit pattern, a natural number below
`2 ^ 32`, which is exactly what `struct.pack` writes for them.
-/

namespace Rewinder

/-- `MOTOR_MIN_TIME = 0.100` from `drv8833_motor.py` line 9. -/
def MOTOR_MIN_TIME : ℚ := 1 / 10

/-- The configuration fields of `Drv8833Motor` that `set_speed` reads
(`max_power`, `kick_start_speed`, `kick_start_time`).  Klipper's config
parser enforces `0 < max_power ≤ 1`, `0 < kick_start_speed ≤ 1` and
`0 ≤ kick_start_time`; those bounds appear as hypotheses where needed. -/
structure MotorConfig where
  max_power : ℚ
  kick_start_speed : ℚ
  kick_start_time : ℚ
deriving DecidableEq, Repr

/-- The mutable state of `Drv8833Motor` that `set_speed` reads and writes:
`last_speed_a`, `last_speed_b`, `last_decay_mode`, `last_motor_time`. -/
structure MotorState where
  last_speed_a : ℚ
  last_speed_b : ℚ
  last_decay_mode : String
  last_motor_time : ℚ
deriving DecidableEq, Repr

/-- Python's built-in `abs` on our exact-rational model of floats.  (Defined
by cases rather than through Mathlib's lattice `abs` so that it evaluates by
kernel reduction; `pyabs_eq_abs` below identifies the two.) -/
def pyabs (x : ℚ) : ℚ := if x < 0 then -x else x

/-- Python's built-in two-argument `max` (the larger value; equal to
Mathlib's `max` on `ℚ`, see `pymax_eq_max`). -/
def pymax (x y : ℚ) : ℚ := if x < y then y else x

/-- Python's built-in two-argument `min` (the smaller value; equal to
Mathlib's `min` on `ℚ`, see `pymin_eq_min`). -/
def pymin (x y : ℚ) : ℚ := if y < x then y else x

/-- Python `math.copysign x sign`: `|x|` carrying the sign of `sign`.
`sign = 0` keeps the positive sign, matching IEEE `+0.0` (the only zero
representable in `ℚ`). -/
def pycopysign (x sign : ℚ) : ℚ := if sign < 0 then -pyabs x else pyabs x

/-- Line 68 of `drv8833_motor.py`:
`velocity = copysign(max(0., min(max_power, abs(velocity) * max_power)), velocity)`. -/
def clamp_velocity (max_power velocity : ℚ) : ℚ :=
  pycopysign (pymax 0 (pymin max_power (pyabs velocity * max_power))) velocity

/-- `Drv8833Motor.ab_to_velocity` (lines 90-100): decode a duty pair back to
a signed velocity; `none` models Python's `None` (ambiguous pair). -/
def ab_to_velocity (a b : ℚ) : Option ℚ :=
  if b = 0 then some a
  else if a = 0 then some (-b)
  else if b = 1 then some (a - 1)
  else if a = 1 then some (1 - b)
  else none

/-- The `last_motor_velocity` property (lines 102-104):
`ab_to_velocity last_speed_a last_speed_b`. -/
def last_motor_velocity (s : MotorState) : Option ℚ :=
  ab_to_velocity s.last_speed_a s.last_speed_b

/-- Lines 71-80 of `drv8833_motor.py`, applied to the already clamped
velocity: the steady-state duty pair `(speed_a, speed_b)` and the kick-start
duty pair `(ks_a, ks_b)`, with the pairs swapped for negative velocity.
Any decay-mode string other than `"fast"` takes the slow-decay branch,
exactly as the Python `if decay_mode == 'fast': ... else: ...` does. -/
def encode_pairs (cfg : MotorConfig) (velocity : ℚ) (decay_mode : String) :
    (ℚ × ℚ) × (ℚ × ℚ) :=
  let speed := pyabs velocity
  let p : (ℚ × ℚ) × (ℚ × ℚ) :=
    if decay_mode = "fast" then ((speed, 0), (cfg.kick_start_speed, 0))
    else ((1, 1 - speed), (1, 1 - cfg.kick_start_speed))
  if velocity < 0 then ((p.1.2, p.1.1), (p.2.2, p.2.1)) else p

/-- The outcome of one `set_speed` call: the new motor state, the scheduled
PWM updates (each a `set_ab_speed` call, recorded as
`(print_time, duty_a, duty_b)` in call order), and the Python return value
(`set_speed` only ever executes a bare `return` or falls off the end, so the
returned value is always `None`). -/
structure SpeedResult where
  state : MotorState
  emissions : List (ℚ × ℚ × ℚ)
  ret : Option ℚ
deriving DecidableEq, Repr

/-- `Drv8833Motor.set_speed` (lines 67-88).  The outer `Option` models the
one Python fault path: when `speed` and `kick_start_time` are both nonzero
(truthy) and `last_motor_velocity` is `None`, line 83 evaluates
`abs(velocity - None)` and raises `TypeError`; every state this development
actually runs through decodes, so the fault path never fires in practice.
The kick-start test mirrors the short-circuit of
`if (speed and self.kick_start_time and abs(velocity - self.last_motor_velocity) > .5)`. -/
def set_speed (cfg : MotorConfig) (s : MotorState) (print_time velocity : ℚ)
    (decay_mode : String) : Option SpeedResult :=
  let velocity := clamp_velocity cfg.max_power velocity
  if some velocity = last_motor_velocity s ∧ decay_mode = s.last_decay_mode then
    some ⟨s, [], none⟩
  else
    let speed := pyabs velocity
    let p := encode_pairs cfg velocity decay_mode
    let t0 := pymax (s.last_motor_time + MOTOR_MIN_TIME) print_time
    if speed = 0 ∨ cfg.kick_start_time = 0 then
      some ⟨⟨p.1.1, p.1.2, decay_mode, t0⟩, [(t0, p.1.1, p.1.2)], none⟩
    else
      match last_motor_velocity s with
      | none => none
      | some lmv =>
        if 1 / 2 < pyabs (velocity - lmv) then
          some ⟨⟨p.1.1, p.1.2, decay_mode, t0 + cfg.kick_start_time⟩,
                [(t0, p.2.1, p.2.2), (t0 + cfg.kick_start_time, p.1.1, p.1.2)],
                none⟩
        else
          some ⟨⟨p.1.1, p.1.2, decay_mode, t0⟩, [(t0, p.1.1, p.1.2)], none⟩

/-- `Drv8833Motor.get_status` (lines 147-151): the reported
`(velocity, decay_mode)` pair. -/
def get_status (s : MotorState) : Option ℚ × String :=
  (last_motor_velocity s, s.last_decay_mode)

/-- Modelled from the spec, §4.2: "`set_speed ... → effective_time` ...
Returns the time at which steady state is reached."  For a call that emits
at least one update, the steady-state update is the last one emitted, so the
spec-described return value is the time of the last emission. -/
def spec_steady_state_time (cfg : MotorConfig) (s : MotorState)
    (print_time velocity : ℚ) (decay_mode : String) : Option ℚ :=
  match set_speed cfg s print_time velocity decay_mode with
  | none => none
  | some r => (r.emissions.getLast?).map Prod.fst

/-- Run a list of `set_speed` requests `(print_time, velocity, decay_mode)`
in order, threading the motor state. -/
def run_set_speeds (cfg : MotorConfig) :
    MotorState → List (ℚ × ℚ × String) → Option MotorState
  | s, [] => some s
  | s, c :: rest =>
    match set_speed cfg s c.1 c.2.1 c.2.2 with
    | none => none
    | some r => run_set_speeds cfg r.state rest

/-! ## The MMU rewinder dispatcher (`mmu_rewinder_patch.py`) -/

/-- The MMU fields `MmuRewinderPatch._trace_filament_move` consults:
`gate_selected`, the `gate_status` table (modelled as a total function on
the selected index) and the `GATE_AVAILABLE_FROM_BUFFER` constant. -/
structure MmuCtx where
  gate_selected : ℤ
  gate_status : ℤ → ℤ
  gate_available_from_buffer : ℤ

/-- The tuple of stage names tested on lines 114-118 (the literal tuple in
the source lists `"Bowden pre-unload test"` twice). -/
def slow_stage_names : List String :=
  ["Reverse homing to extruder sensor", "Reverse homing to toolhead sensor",
   "Bowden pre-unload test", "Reverse homing to gate sensor",
   "Unloading extruder", "Final parking", "Bowden pre-unload test"]

/-- Every stage name mapped by the dispatcher: the fast-unload stage, the
slow-rewind tuple, and the bowden-loading stage. -/
def mapped_stage_names : List String :=
  "Course unloading move from bowden" ::
    slow_stage_names ++ ["Course loading move into bowden"]

/-- One `enter / wrapped move / exit` bracket of the dispatcher: issue
`mode`, run the wrapped move, and issue `"stop"` afterwards — but, as in the
source, there is no `try/finally`, so when the wrapped move raises, the
`"stop"` call is never reached and the exception propagates. -/
def bracket (mode : String) (res : Except E R) : Except E R × List String :=
  match res with
  | Except.ok r => (Except.ok r, [mode, "stop"])
  | Except.error e => (Except.error e, [mode])

/-- `MmuRewinderPatch._trace_filament_move` (lines 109-136).  `orig` is the
saved original `_mmu_trace_filament_move`; each branch invokes it exactly
once with the same `(trace_str, args)` the wrapper received, and its result
(normal value or raised exception, as an `Except`) is propagated.  The
returned list records the `rewind_control` mode strings issued, in order.
(The extra `_movequeues_wait_moves()` after the `"Final parking"` bracket is
host motion-queue plumbing with no effect on the rewinder commands and is
not modelled.) -/
def trace_filament_move (ctx : MmuCtx) (orig : String → A → Except E R)
    (trace_str : String) (args : A) : Except E R × List String :=
  if trace_str = "Course unloading move from bowden" then
    bracket "rewind_fast" (orig trace_str args)
  else if trace_str ∈ slow_stage_names then
    bracket "rewind_slow" (orig trace_str args)
  else if trace_str = "Course loading move into bowden" then
    if 0 ≤ ctx.gate_selected ∧
        ctx.gate_status ctx.gate_selected ≠ ctx.gate_available_from_buffer then
      bracket "load_slow" (orig trace_str args)
    else
      bracket "load_fast" (orig trace_str args)
  else
    (orig trace_str args, [])

/-! ## The BLE command frame (`send_command`, `mmu_rewinder_patch.py`) -/

/-- The byte `struct.pack` writes for format `b` (signed char): the two's
complement byte of an integer in `[-128, 127]`. -/
def i8_byte (i : ℤ) : ℕ := (i % 256).toNat

/-- Decode a byte back to the signed char it represents. -/
def byte_to_i8 (b : ℕ) : ℤ := if b < 128 then (b : ℤ) else (b : ℤ) - 256

/-- The four bytes `struct.pack` writes for a little-endian `I` (unsigned
32-bit int), least significant byte first. -/
def u32_le_bytes (n : ℕ) : List ℕ :=
  [n % 256, n / 256 % 256, n / 65536 % 256, n / 16777216 % 256]

/-- Reassemble a little-endian 32-bit value from its four bytes. -/
def le_bytes_to_u32 (b0 b1 b2 b3 : ℕ) : ℕ :=
  b0 + 256 * b1 + 65536 * b2 + 16777216 * b3

/-- `struct.pack('<BBBBbbIff', 0xEE, pin_a, pin_b, decay_mode, speed,
startup_speed, pwm_freq, startup_duration, soft_start_duration)` from
`send_command` (lines 188-190).  `<` means little-endian with no padding.
The two `f` fields are carried as the 4-byte bit patterns of their IEEE-754
binary32 values (`startup_duration_bits`, `soft_start_bits`), which are the
exact bytes `struct.pack` emits for them.  `none` models the `struct.error`
raised when a field is out of range for its format code. -/
def pack_frame (pin_a pin_b decay_mode : ℕ) (speed startup_speed : ℤ)
    (pwm_freq startup_duration_bits soft_start_bits : ℕ) : Option (List ℕ) :=
  if pin_a < 256 ∧ pin_b < 256 ∧ decay_mode < 256 ∧
      -128 ≤ speed ∧ speed ≤ 127 ∧ -128 ≤ startup_speed ∧ startup_speed ≤ 127 ∧
      pwm_freq < 4294967296 ∧ startup_duration_bits < 4294967296 ∧
      soft_start_bits < 4294967296 then
    some ([0xEE, pin_a, pin_b, decay_mode, i8_byte speed, i8_byte startup_speed]
      ++ u32_le_bytes pwm_freq ++ u32_le_bytes startup_duration_bits
      ++ u32_le_bytes soft_start_bits)
  else none

/-- The receiving side of the frame: `struct.unpack('<BBBBbbIff', frame)`,
again with the float fields kept as their 32-bit patterns.  Fails unless the
frame is exactly 18 bytes. -/
def unpack_frame (fr : List ℕ) :
    Option (ℕ × ℕ × ℕ × ℕ × ℤ × ℤ × ℕ × ℕ × ℕ) :=
  match fr with
  | [m, pa, pb, dm, sp, ss, f0, f1, f2, f3, d0, d1, d2, d3, s0, s1, s2, s3] =>
    some (m, pa, pb, dm, byte_to_i8 sp, byte_to_i8 ss,
          le_bytes_to_u32 f0 f1 f2 f3, le_bytes_to_u32 d0 d1 d2 d3,
          le_bytes_to_u32 s0 s1 s2 s3)
  | _ => none

/-! ## Bridge lemmas between the executable Python primitives and Mathlib -/

theorem pyabs_eq_abs (x : ℚ) : pyabs x = |x| := by
  unfold pyabs
  split_ifs with h
  · exact (abs_of_neg h).symm
  · exact (abs_of_nonneg (not_lt.mp h)).symm

theorem pymax_eq_max (x y : ℚ) : pymax x y = max x y := by
  unfold pymax
  split_ifs with h
  · exact (max_eq_right h.le).symm
  · exact (max_eq_left (not_lt.mp h)).symm

theorem pymin_eq_min (x y : ℚ) : pymin x y = min x y := by
  unfold pymin
  split_ifs with h
  · exact (min_eq_right h.le).symm
  · exact (min_eq_left (not_lt.mp h)).symm

theorem pyabs_nonneg (x : ℚ) : 0 ≤ pyabs x := by
  rw [pyabs_eq_abs]
  exact abs_nonneg x

theorem pyabs_pycopysign (x s : ℚ) : pyabs (pycopysign x s) = pyabs x := by
  unfold pycopysign
  split_ifs with h
  · rw [pyabs_eq_abs, pyabs_eq_abs, abs_neg, abs_abs]
  · rw [pyabs_eq_abs, pyabs_eq_abs, abs_abs]

/-! ## Structural lemmas about `set_speed`

One lemma per control path of the Python function: the no-op early return,
the plain steady-state schedule (zero target or kick-start disabled), the
small-change steady-state schedule, the kick-start path, and the `TypeError`
path when the previous duty pair is ambiguous. -/

theorem ab_to_velocity_encode_pairs (cfg : MotorConfig) (v : ℚ) (d : String) :
    ab_to_velocity (encode_pairs cfg v d).1.1 (encode_pairs cfg v d).1.2 = some v := by
  unfold encode_pairs pyabs ab_to_velocity
  by_cases hf : d = "fast" <;> by_cases hv : v < 0 <;>
    simp only [hf, hv, if_true, if_false, ite_true, ite_false, eq_self_iff_true] <;>
    split_ifs <;> simp_all <;> linarith

theorem set_speed_noop (cfg : MotorConfig) (s : MotorState) (t v : ℚ) (d : String)
    (h1 : some (clamp_velocity cfg.max_power v) = last_motor_velocity s)
    (h2 : d = s.last_decay_mode) :
    set_speed cfg s t v d = some ⟨s, [], none⟩ := by
  unfold set_speed
  rw [if_pos ⟨h1, h2⟩]

theorem set_speed_no_kick (cfg : MotorConfig) (s : MotorState) (t v : ℚ) (d : String)
    (hno : ¬(some (clamp_velocity cfg.max_power v) = last_motor_velocity s ∧
      d = s.last_decay_mode))
    (hz : pyabs (clamp_velocity cfg.max_power v) = 0 ∨ cfg.kick_start_time = 0) :
    set_speed cfg s t v d =
      some ⟨⟨(encode_pairs cfg (clamp_velocity cfg.max_power v) d).1.1,
             (encode_pairs cfg (clamp_velocity cfg.max_power v) d).1.2, d,
             pymax (s.last_motor_time + MOTOR_MIN_TIME) t⟩,
            [(pymax (s.last_motor_time + MOTOR_MIN_TIME) t,
              (encode_pairs cfg (clamp_velocity cfg.max_power v) d).1.1,
              (encode_pairs cfg (clamp_velocity cfg.max_power v) d).1.2)], none⟩ := by
  unfold set_speed
  rw [if_neg hno, if_pos hz]

theorem set_speed_small_change (cfg : MotorConfig) (s : MotorState) (t v : ℚ) (d : String)
    (l : ℚ)
    (hno : ¬(some (clamp_velocity cfg.max_power v) = last_motor_velocity s ∧
      d = s.last_decay_mode))
    (hs : pyabs (clamp_velocity cfg.max_power v) ≠ 0) (hk : cfg.kick_start_time ≠ 0)
    (hl : last_motor_velocity s = some l)
    (hsmall : ¬(1 / 2 < pyabs (clamp_velocity cfg.max_power v - l))) :
    set_speed cfg s t v d =
      some ⟨⟨(encode_pairs cfg (clamp_velocity cfg.max_power v) d).1.1,
             (encode_pairs cfg (clamp_velocity cfg.max_power v) d).1.2, d,
             pymax (s.last_motor_time + MOTOR_MIN_TIME) t⟩,
            [(pymax (s.last_motor_time + MOTOR_MIN_TIME) t,
              (encode_pairs cfg (clamp_velocity cfg.max_power v) d).1.1,
              (encode_pairs cfg (clamp_velocity cfg.max_power v) d).1.2)], none⟩ := by
  unfold set_speed
  rw [if_neg hno, if_neg (not_or.mpr ⟨hs, hk⟩), hl]
  exact if_neg hsmall

theorem set_speed_kick (cfg : MotorConfig) (s : MotorState) (t v : ℚ) (d : String)
    (l : ℚ)
    (hno : ¬(some (clamp_velocity cfg.max_power v) = last_motor_velocity s ∧
      d = s.last_decay_mode))
    (hs : pyabs (clamp_velocity cfg.max_power v) ≠ 0) (hk : cfg.kick_start_time ≠ 0)
    (hl : last_motor_velocity s = some l)
    (hbig : 1 / 2 < pyabs (clamp_velocity cfg.max_power v - l)) :
    set_speed cfg s t v d =
      some ⟨⟨(encode_pairs cfg (clamp_velocity cfg.max_power v) d).1.1,
             (encode_pairs cfg (clamp_velocity cfg.max_power v) d).1.2, d,
             pymax (s.last_motor_time + MOTOR_MIN_TIME) t + cfg.kick_start_time⟩,
            [(pymax (s.last_motor_time + MOTOR_MIN_TIME) t,
              (encode_pairs cfg (clamp_velocity cfg.max_power v) d).2.1,
              (encode_pairs cfg (clamp_velocity cfg.max_power v) d).2.2),
             (pymax (s.last_motor_time + MOTOR_MIN_TIME) t + cfg.kick_start_time,
              (encode_pairs cfg (clamp_velocity cfg.max_power v) d).1.1,
              (encode_pairs cfg (clamp_velocity cfg.max_power v) d).1.2)], none⟩ := by
  unfold set_speed
  rw [if_neg hno, if_neg (not_or.mpr ⟨hs, hk⟩), hl]
  exact if_pos hbig

theorem set_speed_none (cfg : MotorConfig) (s : MotorState) (t v : ℚ) (d : String)
    (hno : ¬(some (clamp_velocity cfg.max_power v) = last_motor_velocity s ∧
      d = s.last_decay_mode))
    (hs : pyabs (clamp_velocity cfg.max_power v) ≠ 0) (hk : cfg.kick_start_time ≠ 0)
    (hl : last_motor_velocity s = none) :
    set_speed cfg s t v d = none := by
  unfold set_speed
  rw [if_neg hno, if_neg (not_or.mpr ⟨hs, hk⟩), hl]

/-- After any successful `set_speed` call the stored duty pair decodes to the
clamped commanded velocity and the stored decay mode is the commanded one. -/
theorem set_speed_status (cfg : MotorConfig) (s : MotorState) (t v : ℚ) (d : String)
    (r : SpeedResult) (h : set_speed cfg s t v d = some r) :
    last_motor_velocity r.state = some (clamp_velocity cfg.max_power v) ∧
      r.state.last_decay_mode = d := by
  by_cases hno : some (clamp_velocity cfg.max_power v) = last_motor_velocity s ∧
      d = s.last_decay_mode
  · rw [set_speed_noop cfg s t v d hno.1 hno.2] at h
    injection h with h2
    subst h2
    exact ⟨hno.1.symm, hno.2.symm⟩
  · by_cases hz : pyabs (clamp_velocity cfg.max_power v) = 0 ∨ cfg.kick_start_time = 0
    · rw [set_speed_no_kick cfg s t v d hno hz] at h
      injection h with h2
      subst h2
      exact ⟨ab_to_velocity_encode_pairs cfg _ d, rfl⟩
    · push_neg at hz
      cases hl : last_motor_velocity s with
      | none =>
        rw [set_speed_none cfg s t v d hno hz.1 hz.2 hl] at h
        exact absurd h (by simp)
      | some l =>
        by_cases hbig : 1 / 2 < pyabs (clamp_velocity cfg.max_power v - l)
        · rw [set_speed_kick cfg s t v d l hno hz.1 hz.2 hl hbig] at h
          injection h with h2
          subst h2
          exact ⟨ab_to_velocity_encode_pairs cfg _ d, rfl⟩
        · rw [set_speed_small_change cfg s t v d l hno hz.1 hz.2 hl hbig] at h
          injection h with h2
          subst h2
          exact ⟨ab_to_velocity_encode_pairs cfg _ d, rfl⟩

/-- `last_motor_time` never decreases across one `set_speed` call (given the
config-enforced `kick_start_time ≥ 0`). -/
theorem set_speed_time_mono (cfg : MotorConfig) (s : MotorState) (t v : ℚ) (d : String)
    (r : SpeedResult) (hkst : 0 ≤ cfg.kick_start_time)
    (h : set_speed cfg s t v d = some r) :
    s.last_motor_time ≤ r.state.last_motor_time := by
  have hmax : s.last_motor_time ≤ pymax (s.last_motor_time + MOTOR_MIN_TIME) t := by
    rw [pymax_eq_max]
    have := le_max_left (s.last_motor_time + MOTOR_MIN_TIME) t
    have h10 : (0 : ℚ) < MOTOR_MIN_TIME := by norm_num [MOTOR_MIN_TIME]
    linarith
  by_cases hno : some (clamp_velocity cfg.max_power v) = last_motor_velocity s ∧
      d = s.last_decay_mode
  · rw [set_speed_noop cfg s t v d hno.1 hno.2] at h
    injection h with h2
    subst h2
    exact le_refl _
  · by_cases hz : pyabs (clamp_velocity cfg.max_power v) = 0 ∨ cfg.kick_start_time = 0
    · rw [set_speed_no_kick cfg s t v d hno hz] at h
      injection h with h2
      subst h2
      exact hmax
    · push_neg at hz
      cases hl : last_motor_velocity s with
      | none =>
        rw [set_speed_none cfg s t v d hno hz.1 hz.2 hl] at h
        exact absurd h (by simp)
      | some l =>
        by_cases hbig : 1 / 2 < pyabs (clamp_velocity cfg.max_power v - l)
        · rw [set_speed_kick cfg s t v d l hno hz.1 hz.2 hl hbig] at h
          injection h with h2
          subst h2
          simp only []
          linarith
        · rw [set_speed_small_change cfg s t v d l hno hz.1 hz.2 hl hbig] at h
          injection h with h2
          subst h2
          exact hmax

/-- A `set_speed` call that emits anything emits its first update at
`max (last_motor_time + MOTOR_MIN_TIME) print_time`, and that scheduling
time is at most the stored `last_motor_time` of the new state. -/
theorem set_speed_sched (cfg : MotorConfig) (s : MotorState) (t v : ℚ) (d : String)
    (r : SpeedResult) (hkst : 0 ≤ cfg.kick_start_time)
    (h : set_speed cfg s t v d = some r) (hne : r.emissions ≠ []) :
    (r.emissions.head?).map Prod.fst =
        some (pymax (s.last_motor_time + MOTOR_MIN_TIME) t) ∧
      pymax (s.last_motor_time + MOTOR_MIN_TIME) t ≤ r.state.last_motor_time := by
  by_cases hno : some (clamp_velocity cfg.max_power v) = last_motor_velocity s ∧
      d = s.last_decay_mode
  · rw [set_speed_noop cfg s t v d hno.1 hno.2] at h
    injection h with h2
    subst h2
    exact absurd rfl hne
  · by_cases hz : pyabs (clamp_velocity cfg.max_power v) = 0 ∨ cfg.kick_start_time = 0
    · rw [set_speed_no_kick cfg s t v d hno hz] at h
      injection h with h2
      subst h2
      exact ⟨rfl, le_refl _⟩
    · push_neg at hz
      cases hl : last_motor_velocity s with
      | none =>
        rw [set_speed_none cfg s t v d hno hz.1 hz.2 hl] at h
        exact absurd h (by simp)
      | some l =>
        by_cases hbig : 1 / 2 < pyabs (clamp_velocity cfg.max_power v - l)
        · rw [set_speed_kick cfg s t v d l hno hz.1 hz.2 hl hbig] at h
          injection h with h2
          subst h2
          refine ⟨rfl, ?_⟩
          simp only []
          linarith
        · rw [set_speed_small_change cfg s t v d l hno hz.1 hz.2 hl hbig] at h
          injection h with h2
          subst h2
          exact ⟨rfl, le_refl _⟩

/-- Within the config bounds (`0 < max_power`, `|v| ≤ 1`) the outer
`max 0 (min max_power …)` clamp of line 68 is inactive, so the clamped
velocity is just `|v| * max_power` carrying the sign of `v`. -/
theorem clamp_velocity_of_bounds (mp v : ℚ) (hmp0 : 0 ≤ mp) (hv : |v| ≤ 1) :
    clamp_velocity mp v = pycopysign (|v| * mp) v := by
  unfold clamp_velocity
  congr 1
  rw [pymax_eq_max, pymin_eq_min, pyabs_eq_abs]
  have h2 : |v| * mp ≤ mp := mul_le_of_le_one_left hmp0 hv
  have h3 : 0 ≤ |v| * mp := mul_nonneg (abs_nonneg v) hmp0
  rw [min_eq_right h2, max_eq_right h3]

/-- `last_motor_time` never decreases across any sequence of `set_speed`
calls. -/
theorem run_set_speeds_time_mono (cfg : MotorConfig) (hkst : 0 ≤ cfg.kick_start_time) :
    ∀ (calls : List (ℚ × ℚ × String)) (s s2 : MotorState),
      run_set_speeds cfg s calls = some s2 →
      s.last_motor_time ≤ s2.last_motor_time := by
  intro calls
  induction calls with
  | nil =>
    intro s s2 h
    simp only [run_set_speeds] at h
    injection h with h2
    subst h2
    exact le_refl _
  | cons c rest ih =>
    intro s s2 h
    simp only [run_set_speeds] at h
    cases hss : set_speed cfg s c.1 c.2.1 c.2.2 with
    | none =>
      rw [hss] at h
      exact absurd h (by simp)
    | some r =>
      rw [hss] at h
      exact le_trans (set_speed_time_mono cfg s c.1 c.2.1 c.2.2 r hkst hss)
        (ih r.state s2 h)

/-! ## Structural lemmas about the dispatcher and the wire frame -/

theorem bracket_ok {E R : Type} (mode : String) (x : R) :
    bracket mode (Except.ok x : Except E R) = (Except.ok x, [mode, "stop"]) := rfl

theorem bracket_error {E R : Type} (mode : String) (e : E) :
    bracket mode (Except.error e : Except E R) = (Except.error e, [mode]) := rfl

/-- Every stage in the slow tuple takes the `rewind_slow` bracket. -/
theorem trace_slow {E R A : Type} (ctx : MmuCtx) (stage : String)
    (hst : stage ∈ slow_stage_names) (orig : String → A → Except E R) (args : A) :
    trace_filament_move ctx orig stage args = bracket "rewind_slow" (orig stage args) := by
  fin_cases hst <;> rfl

/-- The bowden-loading stage takes the gate-dependent `load_slow`/`load_fast`
bracket. -/
theorem trace_loading {E R A : Type} (ctx : MmuCtx) (orig : String → A → Except E R)
    (args : A) :
    trace_filament_move ctx orig "Course loading move into bowden" args =
      if 0 ≤ ctx.gate_selected ∧
          ctx.gate_status ctx.gate_selected ≠ ctx.gate_available_from_buffer then
        bracket "load_slow" (orig "Course loading move into bowden" args)
      else
        bracket "load_fast" (orig "Course loading move into bowden" args) := by
  unfold trace_filament_move
  rw [if_neg (by decide), if_neg (by decide), if_pos rfl]

/-- Every mapped stage runs as a `bracket mode (orig stage args)` for some
entry mode other than `"stop"`. -/
theorem trace_mapped {E R A : Type} (ctx : MmuCtx) (stage : String)
    (hst : stage ∈ mapped_stage_names) (orig : String → A → Except E R) (args : A) :
    ∃ mode, mode ≠ "stop" ∧
      trace_filament_move ctx orig stage args = bracket mode (orig stage args) := by
  have hload := trace_loading ctx orig args
  fin_cases hst
  · exact ⟨"rewind_fast", by decide, rfl⟩
  · exact ⟨"rewind_slow", by decide, trace_slow ctx _ (by decide) orig args⟩
  · exact ⟨"rewind_slow", by decide, trace_slow ctx _ (by decide) orig args⟩
  · exact ⟨"rewind_slow", by decide, trace_slow ctx _ (by decide) orig args⟩
  · exact ⟨"rewind_slow", by decide, trace_slow ctx _ (by decide) orig args⟩
  · exact ⟨"rewind_slow", by decide, trace_slow ctx _ (by decide) orig args⟩
  · exact ⟨"rewind_slow", by decide, trace_slow ctx _ (by decide) orig args⟩
  · exact ⟨"rewind_slow", by decide, trace_slow ctx _ (by decide) orig args⟩
  · by_cases hg : 0 ≤ ctx.gate_selected ∧
        ctx.gate_status ctx.gate_selected ≠ ctx.gate_available_from_buffer
    · exact ⟨"load_slow", by decide, by rw [hload, if_pos hg]⟩
    · exact ⟨"load_fast", by decide, by rw [hload, if_neg hg]⟩

/-- Signed-char round trip of the `b` format code. -/
theorem byte_to_i8_i8_byte (i : ℤ) (h0 : -128 ≤ i) (h1 : i ≤ 127) :
    byte_to_i8 (i8_byte i) = i := by
  unfold byte_to_i8 i8_byte
  split_ifs with h <;> omega

/-- Little-endian 32-bit round trip of the `I` format code. -/
theorem le_bytes_to_u32_u32_le_bytes (n : ℕ) (h : n < 4294967296) :
    le_bytes_to_u32 (n % 256) (n / 256 % 256) (n / 65536 % 256) (n / 16777216 % 256) = n := by
  unfold le_bytes_to_u32
  omega

/-! ## The claims -/

/-- C1 (amended): for every mapped stage name the wrapped move issues the
entry mode and then `Stop` exactly once after the stage — but only when the
wrapped stage operation completes normally.  When the wrapped operation
raises, the source has no `try/finally`, the exception propagates, and no
`Stop` is issued at all (see `dispatcher_c1_counterexample`), so the
original claim's "regardless of whether the wrapped stage operation
completed normally or raised an exception" does not hold. -/
theorem dispatcher_c1_amended {E R A : Type} (ctx : MmuCtx) (stage : String)
    (hst : stage ∈ mapped_stage_names) (orig : String → A → Except E R) (args : A) :
    (∀ x, orig stage args = Except.ok x →
      (trace_filament_move ctx orig stage args).1 = Except.ok x ∧
      (trace_filament_move ctx orig stage args).2.count "stop" = 1 ∧
      (trace_filament_move ctx orig stage args).2.getLast? = some "stop") ∧
    (∀ e, orig stage args = Except.error e →
      (trace_filament_move ctx orig stage args).1 = Except.error e ∧
      (trace_filament_move ctx orig stage args).2.count "stop" = 0) := by
  obtain ⟨mode, hmode, htr⟩ := trace_mapped ctx stage hst orig args
  constructor
  · intro x hx
    rw [htr, hx, bracket_ok]
    refine ⟨rfl, ?_, rfl⟩
    simp [List.count_cons, hmode, Ne.symm hmode]
  · intro e he
    rw [htr, he, bracket_error]
    refine ⟨rfl, ?_⟩
    simp [List.count_cons, hmode, Ne.symm hmode]

/-- C1 witness: a normally completing `"Final parking"` stage is bracketed
by `rewind_slow` and exactly one trailing `stop`. -/
theorem dispatcher_c1_witness :
    (trace_filament_move ⟨0, fun _ => 0, 1⟩
        (fun _ _ => (Except.ok () : Except Unit Unit)) "Final parking" ()).1 =
      Except.ok () ∧
    (trace_filament_move ⟨0, fun _ => 0, 1⟩
        (fun _ _ => (Except.ok () : Except Unit Unit)) "Final parking" ()).2.count
        "stop" = 1 ∧
    (trace_filament_move ⟨0, fun _ => 0, 1⟩
        (fun _ _ => (Except.ok () : Except Unit Unit)) "Final parking" ()).2.getLast? =
      some "stop" :=
  (dispatcher_c1_amended ⟨0, fun _ => 0, 1⟩ "Final parking" (by decide)
    (fun _ _ => Except.ok ()) ()).1 () rfl

/-- C1 counterexample: when the wrapped move of the mapped stage
`"Final parking"` raises, the dispatcher issues only the entry mode
`rewind_slow` and never issues `stop` — the claim's "Stop exactly once
regardless of an exception" is false on the code. -/
theorem dispatcher_c1_counterexample :
    trace_filament_move ⟨0, fun _ => 0, 1⟩
        (fun _ _ => (Except.error () : Except Unit Unit)) "Final parking" () =
      (Except.error (), ["rewind_slow"]) ∧
    (["rewind_slow"].count "stop" = 1 → False) :=
  ⟨rfl, by decide⟩

/-- C2 (amended): a kick-start pulse (the `encode_pairs … .2` duty pair
built from `kick_start_speed`, scheduled `kick_start_time` before the
steady-state pair) is issued if and only if the clamped magnitude is
nonzero, `kick_start_time > 0`, and the velocity change versus the decoded
previous command exceeds 0.5.  The original claim's fourth condition
"magnitude below `max_power`" is not checked by the code (see
`drv8833_motor_c2_counterexample`). -/
theorem drv8833_motor_c2_amended (cfg : MotorConfig) (s : MotorState) (t v : ℚ)
    (d : String) (l : ℚ) (r : SpeedResult)
    (hkst : 0 ≤ cfg.kick_start_time)
    (hl : last_motor_velocity s = some l)
    (h : set_speed cfg s t v d = some r) :
    (r.emissions.length = 2 ↔
      (clamp_velocity cfg.max_power v ≠ 0 ∧ 0 < cfg.kick_start_time ∧
        1 / 2 < |clamp_velocity cfg.max_power v - l|)) ∧
    (r.emissions.length = 2 →
      r.emissions =
        [(max t (s.last_motor_time + MOTOR_MIN_TIME),
          (encode_pairs cfg (clamp_velocity cfg.max_power v) d).2.1,
          (encode_pairs cfg (clamp_velocity cfg.max_power v) d).2.2),
         (max t (s.last_motor_time + MOTOR_MIN_TIME) + cfg.kick_start_time,
          (encode_pairs cfg (clamp_velocity cfg.max_power v) d).1.1,
          (encode_pairs cfg (clamp_velocity cfg.max_power v) d).1.2)]) := by
  have habs : pyabs (clamp_velocity cfg.max_power v - l) =
      |clamp_velocity cfg.max_power v - l| := pyabs_eq_abs _
  by_cases hno : some (clamp_velocity cfg.max_power v) = last_motor_velocity s ∧
      d = s.last_decay_mode
  · rw [set_speed_noop cfg s t v d hno.1 hno.2] at h
    injection h with h2
    subst h2
    have hwl : clamp_velocity cfg.max_power v = l := by
      have h3 := hno.1.trans hl
      injection h3.symm with h4
      exact h4.symm
    constructor
    · constructor
      · intro hx
        exact absurd hx (by norm_num)
      · rintro ⟨-, -, hbig⟩
        rw [hwl, sub_self, abs_zero] at hbig
        exact absurd hbig (by norm_num)
    · intro hx
      exact absurd hx (by norm_num)
  · by_cases hz : pyabs (clamp_velocity cfg.max_power v) = 0 ∨ cfg.kick_start_time = 0
    · rw [set_speed_no_kick cfg s t v d hno hz] at h
      injection h with h2
      subst h2
      constructor
      · constructor
        · intro hx
          exact absurd hx (by norm_num)
        · rintro ⟨hw, hkpos, -⟩
          rcases hz with hz | hz
          · rw [pyabs_eq_abs, abs_eq_zero] at hz
            exact (hw hz).elim
          · rw [hz] at hkpos
            exact absurd hkpos (by norm_num)
      · intro hx
        exact absurd hx (by norm_num)
    · push_neg at hz
      by_cases hbig : 1 / 2 < pyabs (clamp_velocity cfg.max_power v - l)
      · rw [set_speed_kick cfg s t v d l hno hz.1 hz.2 hl hbig] at h
        injection h with h2
        subst h2
        have hw : clamp_velocity cfg.max_power v ≠ 0 := by
          intro hx
          apply hz.1
          rw [hx]
          norm_num [pyabs]
        constructor
        · constructor
          · intro _
            exact ⟨hw, lt_of_le_of_ne hkst (Ne.symm hz.2), habs ▸ hbig⟩
          · intro _
            norm_num
        · intro _
          rw [pymax_eq_max, max_comm]
      · rw [set_speed_small_change cfg s t v d l hno hz.1 hz.2 hl hbig] at h
        injection h with h2
        subst h2
        constructor
        · constructor
          · intro hx
            exact absurd hx (by norm_num)
          · rintro ⟨-, -, hb⟩
            rw [← habs] at hb
            exact absurd hb hbig
        · intro hx
          exact absurd hx (by norm_num)

/-- C2 witness: the spec's concrete example — a change from 0.0 to 0.8 with
`kick_start_time = 0.1` emits two duty updates, the pulse at time 1 and the
steady pair 0.1 later. -/
theorem drv8833_motor_c2_witness :
    ([((1:ℚ), (1:ℚ), (0:ℚ)), ((11:ℚ)/10, (4:ℚ)/5, (0:ℚ))].length = 2 ↔
      (clamp_velocity 1 (4/5) ≠ 0 ∧ (0:ℚ) < 1/10 ∧
        (1:ℚ)/2 < |clamp_velocity 1 (4/5) - 0|)) := by
  exact (drv8833_motor_c2_amended ⟨1, 1, 1/10⟩ ⟨0, 0, "fast", 0⟩ 1 (4/5) "fast" 0
    ⟨⟨4/5, 0, "fast", 11/10⟩, [(1, 1, 0), (11/10, 4/5, 0)], none⟩
    (by norm_num) (by norm_num [last_motor_velocity, ab_to_velocity])
    (by norm_num [set_speed, clamp_velocity, pycopysign, pyabs, pymax, pymin,
      encode_pairs, last_motor_velocity, ab_to_velocity, MOTOR_MIN_TIME])).1

/-- C2 counterexample: with `max_power = 1` a command from rest to full
speed issues the kick-start pulse (two scheduled updates) even though the
clamped magnitude equals `max_power` and is not below it, refuting the
"only if all four conditions hold" direction of the claim. -/
theorem drv8833_motor_c2_counterexample :
    (set_speed ⟨1, 1, 1/10⟩ ⟨0, 0, "fast", 0⟩ 1 1 "fast").map
        (fun r => r.emissions.length) = some 2 ∧
    ¬(|clamp_velocity 1 1| < (1 : ℚ)) := by
  norm_num [set_speed, clamp_velocity, pycopysign, pyabs, pymax, pymin,
    encode_pairs, last_motor_velocity, ab_to_velocity, MOTOR_MIN_TIME]

/-- C3: `last_motor_time` is non-decreasing across every sequence of
`set_speed` calls; every non-no-op call schedules its first update at
`max (requested_time) (last_motor_time + MOTOR_MIN_TIME)` with
`MOTOR_MIN_TIME = 0.100`; and consecutive non-no-op scheduling times are at
least `MOTOR_MIN_TIME` apart. -/
theorem drv8833_motor_c3 (cfg : MotorConfig) (hkst : 0 ≤ cfg.kick_start_time) :
    MOTOR_MIN_TIME = 1 / 10 ∧
    (∀ calls s s2, run_set_speeds cfg s calls = some s2 →
      s.last_motor_time ≤ s2.last_motor_time) ∧
    (∀ s t v d r, set_speed cfg s t v d = some r → r.emissions ≠ [] →
      (r.emissions.head?).map Prod.fst =
        some (max t (s.last_motor_time + MOTOR_MIN_TIME))) ∧
    (∀ s t1 v1 d1 r1 t2 v2 d2 r2 e1 e2,
      set_speed cfg s t1 v1 d1 = some r1 →
      set_speed cfg r1.state t2 v2 d2 = some r2 →
      r1.emissions.head? = some e1 → r2.emissions.head? = some e2 →
      e1.1 + MOTOR_MIN_TIME ≤ e2.1) := by
  refine ⟨rfl, run_set_speeds_time_mono cfg hkst, ?_, ?_⟩
  · intro s t v d r h hne
    rw [(set_speed_sched cfg s t v d r hkst h hne).1, pymax_eq_max, max_comm]
  · intro s t1 v1 d1 r1 t2 v2 d2 r2 e1 e2 h1 h2 he1 he2
    have hne1 : r1.emissions ≠ [] := by
      intro hx
      rw [hx] at he1
      exact absurd he1 (by simp)
    have hne2 : r2.emissions ≠ [] := by
      intro hx
      rw [hx] at he2
      exact absurd he2 (by simp)
    obtain ⟨hh1, hle1⟩ := set_speed_sched cfg s t1 v1 d1 r1 hkst h1 hne1
    obtain ⟨hh2, hle2⟩ := set_speed_sched cfg r1.state t2 v2 d2 r2 hkst h2 hne2
    rw [he1] at hh1
    rw [he2] at hh2
    injection hh1 with hv1x
    injection hh2 with hv2x
    have hm2 : r1.state.last_motor_time + MOTOR_MIN_TIME ≤ e2.1 := by
      rw [hv2x, pymax_eq_max]
      exact le_max_left _ _
    rw [hv1x]
    linarith [hle1, hm2]

/-- C3 witness: a concrete two-call sequence from the initial state, with
the stored command time growing from 0 to 2. -/
theorem drv8833_motor_c3_witness :
    (0 : ℚ) ≤ (⟨1, 1, 1/10⟩ : MotorConfig).kick_start_time ∧
    (⟨0, 0, "fast", 0⟩ : MotorState).last_motor_time ≤
      (⟨17/20, 0, "fast", 2⟩ : MotorState).last_motor_time :=
  ⟨by norm_num,
   (drv8833_motor_c3 ⟨1, 1, 1/10⟩ (by norm_num)).2.1
     [(1, 4/5, "fast"), (2, 17/20, "fast")] ⟨0, 0, "fast", 0⟩ ⟨17/20, 0, "fast", 2⟩
     (by norm_num [run_set_speeds, set_speed, clamp_velocity, pycopysign, pyabs,
       pymax, pymin, encode_pairs, last_motor_velocity, ab_to_velocity,
       MOTOR_MIN_TIME])⟩

/-- C4: for every `velocity ∈ [-1, 1]` and decay mode in `{fast, slow}`, the
steady-state duty pair computed by `set_speed` (via `encode_pairs` on the
clamped velocity) lies in `[0, 1] × [0, 1]` with at most one leg strictly
between 0 and 1, and matches the encoding rules with
`effective = |velocity| * max_power`: fast decay drives one leg at
`effective` with the other at 0, slow decay holds the non-driven leg at 1
with the driven leg at `1 - effective`, and negative velocity swaps the
pair. -/
theorem drv8833_motor_c4 (cfg : MotorConfig) (v : ℚ) (d : String)
    (hmp0 : 0 < cfg.max_power) (hmp1 : cfg.max_power ≤ 1)
    (hv0 : -1 ≤ v) (hv1 : v ≤ 1) (hd : d = "fast" ∨ d = "slow") :
    (0 ≤ (encode_pairs cfg (clamp_velocity cfg.max_power v) d).1.1 ∧
     (encode_pairs cfg (clamp_velocity cfg.max_power v) d).1.1 ≤ 1 ∧
     0 ≤ (encode_pairs cfg (clamp_velocity cfg.max_power v) d).1.2 ∧
     (encode_pairs cfg (clamp_velocity cfg.max_power v) d).1.2 ≤ 1) ∧
    ¬(0 < (encode_pairs cfg (clamp_velocity cfg.max_power v) d).1.1 ∧
      (encode_pairs cfg (clamp_velocity cfg.max_power v) d).1.1 < 1 ∧
      0 < (encode_pairs cfg (clamp_velocity cfg.max_power v) d).1.2 ∧
      (encode_pairs cfg (clamp_velocity cfg.max_power v) d).1.2 < 1) ∧
    (d = "fast" →
      (0 ≤ v → (encode_pairs cfg (clamp_velocity cfg.max_power v) d).1 =
        (|v| * cfg.max_power, 0)) ∧
      (v < 0 → (encode_pairs cfg (clamp_velocity cfg.max_power v) d).1 =
        (0, |v| * cfg.max_power))) ∧
    (d = "slow" →
      (0 ≤ v → (encode_pairs cfg (clamp_velocity cfg.max_power v) d).1 =
        (1, 1 - |v| * cfg.max_power)) ∧
      (v < 0 → (encode_pairs cfg (clamp_velocity cfg.max_power v) d).1 =
        (1 - |v| * cfg.max_power, 1))) := by
  have hva : |v| ≤ 1 := abs_le.mpr ⟨hv0, hv1⟩
  have hx0 : 0 ≤ |v| * cfg.max_power := mul_nonneg (abs_nonneg v) hmp0.le
  have hx1 : |v| * cfg.max_power ≤ 1 := by
    calc |v| * cfg.max_power ≤ 1 * 1 :=
      mul_le_mul hva hmp1 hmp0.le (by norm_num)
    _ = 1 := one_mul 1
  have hclamp := clamp_velocity_of_bounds cfg.max_power v hmp0.le hva
  have hpos : 0 ≤ v → clamp_velocity cfg.max_power v = |v| * cfg.max_power := by
    intro hv
    rw [hclamp]
    unfold pycopysign
    rw [if_neg (not_lt.mpr hv), pyabs_eq_abs, abs_of_nonneg hx0]
  have hneg : v < 0 → clamp_velocity cfg.max_power v = -(|v| * cfg.max_power) := by
    intro hv
    rw [hclamp]
    unfold pycopysign
    rw [if_pos hv, pyabs_eq_abs, abs_of_nonneg hx0]
  have hpair_pos : 0 ≤ v → (encode_pairs cfg (clamp_velocity cfg.max_power v) d).1 =
      (if d = "fast" then (|v| * cfg.max_power, 0) else (1, 1 - |v| * cfg.max_power)) := by
    intro hv
    rw [hpos hv]
    unfold encode_pairs
    have hnotlt : ¬(|v| * cfg.max_power < 0) := not_lt.mpr hx0
    rw [pyabs_eq_abs, abs_of_nonneg hx0]
    by_cases hf : d = "fast" <;>
      simp only [hf, if_true, if_false, ite_true, ite_false, hnotlt]
  have hpair_neg : v < 0 → (encode_pairs cfg (clamp_velocity cfg.max_power v) d).1 =
      (if d = "fast" then (0, |v| * cfg.max_power) else (1 - |v| * cfg.max_power, 1)) := by
    intro hv
    have hxpos : 0 < |v| * cfg.max_power :=
      mul_pos (abs_pos.mpr (ne_of_lt hv)) hmp0
    rw [hneg hv]
    unfold encode_pairs
    have hlt : -(|v| * cfg.max_power) < 0 := by linarith
    rw [pyabs_eq_abs, abs_neg, abs_of_nonneg hx0]
    by_cases hf : d = "fast" <;>
      simp only [hf, if_true, if_false, ite_true, ite_false, hlt]
  have hmain : ∀ a b : ℚ,
      (encode_pairs cfg (clamp_velocity cfg.max_power v) d).1 = (a, b) →
      (0 ≤ a ∧ a ≤ 1 ∧ 0 ≤ b ∧ b ≤ 1) →
      ¬(0 < a ∧ a < 1 ∧ 0 < b ∧ b < 1) →
      ((0 ≤ (encode_pairs cfg (clamp_velocity cfg.max_power v) d).1.1 ∧
        (encode_pairs cfg (clamp_velocity cfg.max_power v) d).1.1 ≤ 1 ∧
        0 ≤ (encode_pairs cfg (clamp_velocity cfg.max_power v) d).1.2 ∧
        (encode_pairs cfg (clamp_velocity cfg.max_power v) d).1.2 ≤ 1) ∧
       ¬(0 < (encode_pairs cfg (clamp_velocity cfg.max_power v) d).1.1 ∧
         (encode_pairs cfg (clamp_velocity cfg.max_power v) d).1.1 < 1 ∧
         0 < (encode_pairs cfg (clamp_velocity cfg.max_power v) d).1.2 ∧
         (encode_pairs cfg (clamp_velocity cfg.max_power v) d).1.2 < 1)) := by
    intro a b hab hbounds hstrict
    rw [hab]
    exact ⟨hbounds, hstrict⟩
  rcases hd with hd | hd <;> subst hd
  · rcases le_or_lt 0 v with hv | hv
    · have hp : (encode_pairs cfg (clamp_velocity cfg.max_power v) "fast").1 =
          (|v| * cfg.max_power, 0) := by
        rw [hpair_pos hv]
        exact if_pos rfl
      refine ⟨(hmain _ _ hp ⟨hx0, hx1, le_refl 0, by norm_num⟩ ?_).1,
        (hmain _ _ hp ⟨hx0, hx1, le_refl 0, by norm_num⟩ ?_).2, ?_, ?_⟩
      · rintro ⟨-, -, h3, -⟩
        exact lt_irrefl 0 h3
      · rintro ⟨-, -, h3, -⟩
        exact lt_irrefl 0 h3
      · intro _
        exact ⟨fun _ => hp, fun h2 => absurd h2 (not_lt.mpr hv)⟩
      · intro hd2
        simp at hd2
    · have hp : (encode_pairs cfg (clamp_velocity cfg.max_power v) "fast").1 =
          (0, |v| * cfg.max_power) := by
        rw [hpair_neg hv]
        exact if_pos rfl
      refine ⟨(hmain _ _ hp ⟨le_refl 0, by norm_num, hx0, hx1⟩ ?_).1,
        (hmain _ _ hp ⟨le_refl 0, by norm_num, hx0, hx1⟩ ?_).2, ?_, ?_⟩
      · rintro ⟨h1, -, -, -⟩
        exact lt_irrefl 0 h1
      · rintro ⟨h1, -, -, -⟩
        exact lt_irrefl 0 h1
      · intro _
        exact ⟨fun h2 => absurd hv (not_lt.mpr h2), fun _ => hp⟩
      · intro hd2
        simp at hd2
  · rcases le_or_lt 0 v with hv | hv
    · have hp : (encode_pairs cfg (clamp_velocity cfg.max_power v) "slow").1 =
          (1, 1 - |v| * cfg.max_power) := by
        rw [hpair_pos hv]
        exact if_neg (by decide)
      refine ⟨(hmain _ _ hp ⟨by norm_num, le_refl 1, by linarith, by linarith⟩ ?_).1,
        (hmain _ _ hp ⟨by norm_num, le_refl 1, by linarith, by linarith⟩ ?_).2, ?_, ?_⟩
      · rintro ⟨-, h2, -, -⟩
        exact lt_irrefl 1 h2
      · rintro ⟨-, h2, -, -⟩
        exact lt_irrefl 1 h2
      · intro hd2
        simp at hd2
      · intro _
        exact ⟨fun _ => hp, fun h2 => absurd h2 (not_lt.mpr hv)⟩
    · have hp : (encode_pairs cfg (clamp_velocity cfg.max_power v) "slow").1 =
          (1 - |v| * cfg.max_power, 1) := by
        rw [hpair_neg hv]
        exact if_neg (by decide)
      refine ⟨(hmain _ _ hp ⟨by linarith, by linarith, by norm_num, le_refl 1⟩ ?_).1,
        (hmain _ _ hp ⟨by linarith, by linarith, by norm_num, le_refl 1⟩ ?_).2, ?_, ?_⟩
      · rintro ⟨-, -, -, h4⟩
        exact lt_irrefl 1 h4
      · rintro ⟨-, -, -, h4⟩
        exact lt_irrefl 1 h4
      · intro hd2
        simp at hd2
      · intro _
        exact ⟨fun h2 => absurd hv (not_lt.mpr h2), fun _ => hp⟩

/-- C4 witness: at `max_power = 1`, velocity `0.8`, fast decay, the duty
pair is in range and equals `(0.8, 0)`. -/
theorem drv8833_motor_c4_witness :
    (0 ≤ (encode_pairs ⟨1, 1, 1/10⟩ (clamp_velocity 1 (4/5)) "fast").1.1 ∧
     (encode_pairs ⟨1, 1, 1/10⟩ (clamp_velocity 1 (4/5)) "fast").1.1 ≤ 1 ∧
     0 ≤ (encode_pairs ⟨1, 1, 1/10⟩ (clamp_velocity 1 (4/5)) "fast").1.2 ∧
     (encode_pairs ⟨1, 1, 1/10⟩ (clamp_velocity 1 (4/5)) "fast").1.2 ≤ 1) ∧
    (encode_pairs ⟨1, 1, 1/10⟩ (clamp_velocity 1 (4/5)) "fast").1 =
      (|(4:ℚ)/5| * 1, 0) := by
  have hx := drv8833_motor_c4 ⟨1, 1, 1/10⟩ (4/5) "fast" (by norm_num) (by norm_num)
    (by norm_num) (by norm_num) (Or.inl rfl)
  exact ⟨hx.1, (hx.2.2.1 rfl).1 (by norm_num)⟩

/-- C5: a `set_speed` call whose clamped velocity and decay mode match the
last commanded pair is a no-op (no update emitted, state unchanged), and a
second call with the same arguments right after any successful call is
always such a no-op, so the two calls together emit exactly the updates of
the first. -/
theorem drv8833_motor_c5 (cfg : MotorConfig) (s : MotorState) (t v : ℚ) (d : String) :
    (some (clamp_velocity cfg.max_power v) = last_motor_velocity s →
      d = s.last_decay_mode →
      set_speed cfg s t v d = some ⟨s, [], none⟩) ∧
    (∀ t2 r1 r2, set_speed cfg s t v d = some r1 →
      set_speed cfg r1.state t2 v d = some r2 →
      r2.state = r1.state ∧ r2.emissions = [] ∧
        r1.emissions ++ r2.emissions = r1.emissions) := by
  constructor
  · intro h1 h2
    exact set_speed_noop cfg s t v d h1 h2
  · intro t2 r1 r2 h1 h2
    obtain ⟨hv, hd⟩ := set_speed_status cfg s t v d r1 h1
    rw [set_speed_noop cfg r1.state t2 v d hv.symm hd.symm] at h2
    injection h2 with h3
    subst h3
    exact ⟨rfl, rfl, by simp⟩

/-- C5 witness: re-commanding the already stored velocity `0.8` (fast
decay) is a no-op with no emission. -/
theorem drv8833_motor_c5_witness :
    set_speed ⟨1, 1, 1/10⟩ ⟨4/5, 0, "fast", 11/10⟩ 2 (4/5) "fast" =
      some ⟨⟨4/5, 0, "fast", 11/10⟩, [], none⟩ :=
  (drv8833_motor_c5 ⟨1, 1, 1/10⟩ ⟨4/5, 0, "fast", 11/10⟩ 2 (4/5) "fast").1
    (by norm_num [clamp_velocity, pycopysign, pyabs, pymax, pymin,
      last_motor_velocity, ab_to_velocity])
    rfl

/-- C6: the serialized command frame is exactly 18 bytes, little-endian,
with the magic byte `0xEE` at offset 0, `pin_a`, `pin_b`, `decay_mode` at
offsets 1-3, `speed` and `startup_speed` as signed bytes at offsets 4-5,
`pwm_freq` as a 4-byte unsigned int at offsets 6-9 and the two duration
fields (as their binary32 bit patterns) at offsets 10-13 and 14-17; and
decoding a packed frame recovers every field value. -/
theorem frame_c6 (pin_a pin_b decay_mode : ℕ) (speed startup_speed : ℤ)
    (pwm_freq sd ss : ℕ)
    (h1 : pin_a < 256) (h2 : pin_b < 256) (h3 : decay_mode < 256)
    (h4 : -128 ≤ speed) (h5 : speed ≤ 127) (h6 : -128 ≤ startup_speed)
    (h7 : startup_speed ≤ 127) (h8 : pwm_freq < 4294967296)
    (h9 : sd < 4294967296) (h10 : ss < 4294967296) :
    pack_frame pin_a pin_b decay_mode speed startup_speed pwm_freq sd ss =
      some ([0xEE, pin_a, pin_b, decay_mode, i8_byte speed, i8_byte startup_speed]
        ++ u32_le_bytes pwm_freq ++ u32_le_bytes sd ++ u32_le_bytes ss) ∧
    (∀ fr, pack_frame pin_a pin_b decay_mode speed startup_speed pwm_freq sd ss =
        some fr →
      fr.length = 18 ∧
      fr.get? 0 = some 0xEE ∧ fr.get? 1 = some pin_a ∧ fr.get? 2 = some pin_b ∧
      fr.get? 3 = some decay_mode ∧ fr.get? 4 = some (i8_byte speed) ∧
      fr.get? 5 = some (i8_byte startup_speed) ∧
      (fr.drop 6).take 4 = u32_le_bytes pwm_freq ∧
      (fr.drop 10).take 4 = u32_le_bytes sd ∧
      fr.drop 14 = u32_le_bytes ss ∧
      unpack_frame fr = some (0xEE, pin_a, pin_b, decay_mode, speed, startup_speed,
        pwm_freq, sd, ss)) := by
  have hpack : pack_frame pin_a pin_b decay_mode speed startup_speed pwm_freq sd ss =
      some ([0xEE, pin_a, pin_b, decay_mode, i8_byte speed, i8_byte startup_speed]
        ++ u32_le_bytes pwm_freq ++ u32_le_bytes sd ++ u32_le_bytes ss) := by
    unfold pack_frame
    rw [if_pos ⟨h1, h2, h3, h4, h5, h6, h7, h8, h9, h10⟩]
  refine ⟨hpack, ?_⟩
  intro fr hfr
  rw [hpack] at hfr
  injection hfr with hfr
  subst hfr
  unfold u32_le_bytes
  refine ⟨rfl, rfl, rfl, rfl, rfl, rfl, rfl, rfl, rfl, rfl, ?_⟩
  unfold unpack_frame
  simp only [List.cons_append, List.nil_append]
  rw [byte_to_i8_i8_byte speed h4 h5, byte_to_i8_i8_byte startup_speed h6 h7,
    le_bytes_to_u32_u32_le_bytes pwm_freq h8, le_bytes_to_u32_u32_le_bytes sd h9,
    le_bytes_to_u32_u32_le_bytes ss h10]

/-- C6 witness: the spec's round-trip example, with `0.1` and `0.0` carried
as their binary32 bit patterns `0x3DCCCCCD` and `0x00000000`. -/
theorem frame_c6_witness :
    pack_frame 3 4 1 (-100) 127 5000 1036831949 0 =
      some ([0xEE, 3, 4, 1, i8_byte (-100), i8_byte 127] ++ u32_le_bytes 5000 ++
        u32_le_bytes 1036831949 ++ u32_le_bytes 0) ∧
    unpack_frame ([0xEE, 3, 4, 1, i8_byte (-100), i8_byte 127] ++ u32_le_bytes 5000 ++
        u32_le_bytes 1036831949 ++ u32_le_bytes 0) =
      some (0xEE, 3, 4, 1, -100, 127, 5000, 1036831949, 0) := by
  have hx := frame_c6 3 4 1 (-100) 127 5000 1036831949 0 (by norm_num) (by norm_num)
    (by norm_num) (by norm_num) (by norm_num) (by norm_num) (by norm_num)
    (by norm_num) (by norm_num) (by norm_num)
  refine ⟨hx.1, ?_⟩
  exact (hx.2 _ hx.1).2.2.2.2.2.2.2.2.2.2

/-- C7 (amended): a non-no-op `set_speed` call schedules the steady-state
duty at `effective_time = max (requested, last + MOTOR_MIN_TIME)` (after a
kick-start pulse, at `effective_time + kick_start_time`), and records the
time at which steady state is reached in `last_motor_time`; but the Python
function does not return that time — it always returns `None` (see
`drv8833_motor_c7_counterexample`). -/
theorem drv8833_motor_c7_amended (cfg : MotorConfig) (s : MotorState) (t v : ℚ)
    (d : String) (r : SpeedResult)
    (h : set_speed cfg s t v d = some r) (hne : r.emissions ≠ []) :
    r.ret = none ∧
    spec_steady_state_time cfg s t v d = some r.state.last_motor_time ∧
    ((r.emissions =
        [(max t (s.last_motor_time + MOTOR_MIN_TIME),
          (encode_pairs cfg (clamp_velocity cfg.max_power v) d).1.1,
          (encode_pairs cfg (clamp_velocity cfg.max_power v) d).1.2)] ∧
      r.state.last_motor_time = max t (s.last_motor_time + MOTOR_MIN_TIME)) ∨
     (r.emissions =
        [(max t (s.last_motor_time + MOTOR_MIN_TIME),
          (encode_pairs cfg (clamp_velocity cfg.max_power v) d).2.1,
          (encode_pairs cfg (clamp_velocity cfg.max_power v) d).2.2),
         (max t (s.last_motor_time + MOTOR_MIN_TIME) + cfg.kick_start_time,
          (encode_pairs cfg (clamp_velocity cfg.max_power v) d).1.1,
          (encode_pairs cfg (clamp_velocity cfg.max_power v) d).1.2)] ∧
      r.state.last_motor_time =
        max t (s.last_motor_time + MOTOR_MIN_TIME) + cfg.kick_start_time)) := by
  have hspec : spec_steady_state_time cfg s t v d =
      (r.emissions.getLast?).map Prod.fst := by
    unfold spec_steady_state_time
    rw [h]
  by_cases hno : some (clamp_velocity cfg.max_power v) = last_motor_velocity s ∧
      d = s.last_decay_mode
  · rw [set_speed_noop cfg s t v d hno.1 hno.2] at h
    injection h with h2
    subst h2
    exact absurd rfl hne
  · by_cases hz : pyabs (clamp_velocity cfg.max_power v) = 0 ∨ cfg.kick_start_time = 0
    · rw [set_speed_no_kick cfg s t v d hno hz] at h
      injection h with h2
      subst h2
      refine ⟨rfl, ?_,
        Or.inl ⟨by rw [pymax_eq_max, max_comm], by rw [pymax_eq_max, max_comm]⟩⟩
      rw [hspec]
      rfl
    · push_neg at hz
      cases hl : last_motor_velocity s with
      | none =>
        rw [set_speed_none cfg s t v d hno hz.1 hz.2 hl] at h
        exact absurd h (by simp)
      | some l =>
        by_cases hbig : 1 / 2 < pyabs (clamp_velocity cfg.max_power v - l)
        · rw [set_speed_kick cfg s t v d l hno hz.1 hz.2 hl hbig] at h
          injection h with h2
          subst h2
          refine ⟨rfl, ?_,
            Or.inr ⟨by rw [pymax_eq_max, max_comm], by rw [pymax_eq_max, max_comm]⟩⟩
          rw [hspec]
          rfl
        · rw [set_speed_small_change cfg s t v d l hno hz.1 hz.2 hl hbig] at h
          injection h with h2
          subst h2
          refine ⟨rfl, ?_,
            Or.inl ⟨by rw [pymax_eq_max, max_comm], by rw [pymax_eq_max, max_comm]⟩⟩
          rw [hspec]
          rfl

/-- C7 witness: the kick-started 0 → 0.8 command reaches steady state at
time 11/10, which is recorded (and is the time of the last emission), while
the function's return value is `None`. -/
theorem drv8833_motor_c7_witness :
    (none : Option ℚ) = none ∧
    spec_steady_state_time ⟨1, 1, 1/10⟩ ⟨0, 0, "fast", 0⟩ 1 (4/5) "fast" =
      some ((11:ℚ)/10) := by
  have hx := drv8833_motor_c7_amended ⟨1, 1, 1/10⟩ ⟨0, 0, "fast", 0⟩ 1 (4/5) "fast"
    ⟨⟨4/5, 0, "fast", 11/10⟩, [(1, 1, 0), (11/10, 4/5, 0)], none⟩
    (by norm_num [set_speed, clamp_velocity, pycopysign, pyabs, pymax, pymin,
      encode_pairs, last_motor_velocity, ab_to_velocity, MOTOR_MIN_TIME])
    (by simp)
  exact ⟨hx.1, hx.2.1⟩

/-- C7 counterexample: at a concrete non-no-op call the steady state is
reached at time 11/10, but the Python return value is `None`, not that
time — `set_speed` does not return the steady-state time. -/
theorem drv8833_motor_c7_counterexample :
    (set_speed ⟨1, 1, 1/10⟩ ⟨0, 0, "fast", 0⟩ 1 (4/5) "fast").map SpeedResult.ret =
      some none ∧
    spec_steady_state_time ⟨1, 1, 1/10⟩ ⟨0, 0, "fast", 0⟩ 1 (4/5) "fast" =
      some ((11:ℚ)/10) ∧
    (none : Option ℚ) ≠ some ((11:ℚ)/10) := by
  refine ⟨?_, ?_, by simp⟩ <;>
    norm_num [set_speed, spec_steady_state_time, clamp_velocity, pycopysign, pyabs,
      pymax, pymin, encode_pairs, last_motor_velocity, ab_to_velocity, MOTOR_MIN_TIME]

/-- C8: entering the bowden-loading stage consults the dynamic gate state —
`load_slow` when a gate is selected and its status differs from
`GATE_AVAILABLE_FROM_BUFFER`, otherwise `load_fast` — and that is the only
mapped stage whose behaviour depends on the gate state: every other mapped
stage behaves identically under any two gate contexts. -/
theorem dispatcher_c8 {E R A : Type} (ctx ctx2 : MmuCtx) (orig : String → A → Except E R)
    (args : A) :
    (trace_filament_move ctx orig "Course loading move into bowden" args).2.head? =
      some (if 0 ≤ ctx.gate_selected ∧
          ctx.gate_status ctx.gate_selected ≠ ctx.gate_available_from_buffer
        then "load_slow" else "load_fast") ∧
    (∀ stage, stage ∈ mapped_stage_names →
      stage ≠ "Course loading move into bowden" →
      trace_filament_move ctx orig stage args =
        trace_filament_move ctx2 orig stage args) := by
  constructor
  · rw [trace_loading]
    by_cases hg : 0 ≤ ctx.gate_selected ∧
        ctx.gate_status ctx.gate_selected ≠ ctx.gate_available_from_buffer
    · rw [if_pos hg, if_pos hg]
      cases orig "Course loading move into bowden" args <;> rfl
    · rw [if_neg hg, if_neg hg]
      cases orig "Course loading move into bowden" args <;> rfl
  · intro stage hst hne
    fin_cases hst <;> first | rfl | exact absurd rfl hne

/-- C8 witness: with gate 0 selected and its status 0 ≠ 1 (the
available-from-buffer constant) the loading stage enters `load_slow`, and
the `"Final parking"` stage is unaffected by completely different gate
state. -/
theorem dispatcher_c8_witness :
    (trace_filament_move ⟨0, fun _ => 0, 1⟩
        (fun _ _ => (Except.ok () : Except Unit Unit))
        "Course loading move into bowden" ()).2.head? = some "load_slow" ∧
    trace_filament_move ⟨0, fun _ => 0, 1⟩
        (fun _ _ => (Except.ok () : Except Unit Unit)) "Final parking" () =
      trace_filament_move ⟨5, fun _ => 9, 1⟩
        (fun _ _ => (Except.ok () : Except Unit Unit)) "Final parking" () := by
  have hx := dispatcher_c8 (E := Unit) (R := Unit) (A := Unit) ⟨0, fun _ => 0, 1⟩
    ⟨5, fun _ => 9, 1⟩ (fun _ _ => Except.ok ()) ()
  refine ⟨?_, hx.2 "Final parking" (by decide) (by decide)⟩
  rw [hx.1]
  norm_num

/-- C9: an unmapped stage name passes straight through: no rewind mode is
issued and the original filament-move routine is called with the same
arguments, its result returned unchanged. -/
theorem dispatcher_c9 {E R A : Type} (ctx : MmuCtx) (stage : String)
    (hst : stage ∉ mapped_stage_names) (orig : String → A → Except E R) (args : A) :
    trace_filament_move ctx orig stage args = (orig stage args, []) := by
  have h1 : stage ≠ "Course unloading move from bowden" := by
    intro hx
    exact hst (by rw [hx]; decide)
  have h2 : ¬stage ∈ slow_stage_names := by
    intro hx
    exact hst (List.mem_cons_of_mem _ (List.mem_append_left _ hx))
  have h3 : stage ≠ "Course loading move into bowden" := by
    intro hx
    exact hst (by rw [hx]; decide)
  unfold trace_filament_move
  rw [if_neg h1, if_neg h2, if_neg h3]

/-- C9 witness: the (unmapped) stage `"Loading extruder"` passes through
with its return value intact and no mode issued. -/
theorem dispatcher_c9_witness :
    trace_filament_move ⟨0, fun _ => 0, 1⟩
        (fun _ _ => (Except.ok 7 : Except Unit ℕ)) "Loading extruder" () =
      (Except.ok 7, []) :=
  dispatcher_c9 ⟨0, fun _ => 0, 1⟩ "Loading extruder" (by decide)
    (fun _ _ => Except.ok 7) ()

/-- C10: the duty-pair decoder `ab_to_velocity` is a left inverse of the
steady-state encoding — for velocity in `[-1, 1]` and any decay mode it
recovers exactly the clamped, sign-preserved commanded velocity
`copysign (|v| * max_power) v` (never the ambiguous `None`), so after any
successful `set_speed` call `get_status` reports the last commanded
velocity and decay mode. -/
theorem drv8833_motor_c10 (cfg : MotorConfig) (s : MotorState) (t v : ℚ) (d : String)
    (r : SpeedResult) (hmp0 : 0 < cfg.max_power) (hmp1 : cfg.max_power ≤ 1)
    (hv0 : -1 ≤ v) (hv1 : v ≤ 1) (h : set_speed cfg s t v d = some r) :
    ab_to_velocity (encode_pairs cfg (clamp_velocity cfg.max_power v) d).1.1
        (encode_pairs cfg (clamp_velocity cfg.max_power v) d).1.2 =
      some (clamp_velocity cfg.max_power v) ∧
    clamp_velocity cfg.max_power v = pycopysign (|v| * cfg.max_power) v ∧
    get_status r.state = (some (clamp_velocity cfg.max_power v), d) := by
  refine ⟨ab_to_velocity_encode_pairs cfg _ d, ?_, ?_⟩
  · exact clamp_velocity_of_bounds cfg.max_power v hmp0.le (abs_le.mpr ⟨hv0, hv1⟩)
  · obtain ⟨h1, h2⟩ := set_speed_status cfg s t v d r h
    unfold get_status
    rw [h1, h2]

/-- C10 witness: at velocity 0.8, `max_power = 1`, fast decay, the encoded
pair decodes back to 0.8 and the status after the call reports it. -/
theorem drv8833_motor_c10_witness :
    ab_to_velocity (encode_pairs ⟨1, 1, 1/10⟩ (clamp_velocity 1 (4/5)) "fast").1.1
        (encode_pairs ⟨1, 1, 1/10⟩ (clamp_velocity 1 (4/5)) "fast").1.2 =
      some (clamp_velocity 1 (4/5)) ∧
    clamp_velocity 1 (4/5) = pycopysign (|(4:ℚ)/5| * 1) (4/5) ∧
    get_status (⟨4/5, 0, "fast", 11/10⟩ : MotorState) =
      (some (clamp_velocity 1 (4/5)), "fast") := by
  exact drv8833_motor_c10 ⟨1, 1, 1/10⟩ ⟨0, 0, "fast", 0⟩ 1 (4/5) "fast"
    ⟨⟨4/5, 0, "fast", 11/10⟩, [(1, 1, 0), (11/10, 4/5, 0)], none⟩
    (by norm_num) (by norm_num) (by norm_num) (by norm_num)
    (by norm_num [set_speed, clamp_velocity, pycopysign, pyabs, pymax, pymin,
      encode_pairs, last_motor_velocity, ab_to_velocity, MOTOR_MIN_TIME])

end Rewinder
